import Mathlib

/-
  Verification development for the Primetrade backend trade core.

  The definitions below are a shallow embedding of the Python sources:
    backend/app/models/trade.py        (Trade entity, calculate_pnl)
    backend/app/schemas/trade.py       (TradeCreate / TradeClose validation)
    backend/app/services/trade_service.py  (lifecycle and aggregation services)
    backend/app/routers/trades.py      (close endpoint control flow)

  Modelling conventions:
  - Python Decimal values are modelled as rationals; Decimal quantisation
    to k fractional digits (Python round, which uses ROUND_HALF_EVEN on
    Decimal values) is the function quantize k below.
  - The database is a list of Trade records; SQL filters become
    List.filter, ORDER BY created_at DESC becomes an insertion sort on a
    descending key, and the primary key lookup becomes List.find?.
    Timestamps are natural numbers.
  - Python strings are handled through their character lists; upper,
    strip, split and isalpha are modelled for the ASCII alphabet.
  - The float win rate computation is idealised as exact rational
    arithmetic with half-even rounding to two fractional digits.
-/

/-- Direction of a trade: BUY is long, SELL is short (models TradeType in
backend/app/models/trade.py). -/
inductive TradeType where
  | BUY
  | SELL
deriving DecidableEq

/-- State of a trade (models TradeStatus in backend/app/models/trade.py). -/
inductive TradeStatus where
  | OPEN
  | CLOSED
deriving DecidableEq

/-- A trade row (models the Trade ORM entity in backend/app/models/trade.py).
Monetary fields are rationals; timestamps are naturals. -/
structure Trade where
  id : ℕ
  user_id : ℕ
  symbol : String
  entry_price : ℚ
  quantity : ℚ
  trade_type : TradeType
  status : TradeStatus
  exit_price : Option ℚ
  realized_pnl : Option ℚ
  created_at : ℕ
  closed_at : Option ℕ
deriving DecidableEq

/-- Realized profit and loss of a trade at a given exit price (models
Trade.calculate_pnl in backend/app/models/trade.py): BUY trades earn
exit minus entry times quantity, SELL trades entry minus exit times
quantity. -/
def Trade.calculate_pnl (t : Trade) (exit_price : ℚ) : ℚ :=
  if t.trade_type = TradeType.BUY then
    (exit_price - t.entry_price) * t.quantity
  else
    (t.entry_price - exit_price) * t.quantity

/-- Round a rational to the nearest integer, ties to the even integer.
This is the rounding used by Python for Decimal values (ROUND_HALF_EVEN)
and by the builtin round. -/
def roundHalfEven (q : ℚ) : ℤ :=
  let f : ℤ := ⌊q⌋
  let r : ℚ := q - (f : ℚ)
  if r < 1/2 then f
  else if 1/2 < r then f + 1
  else if f % 2 = 0 then f else f + 1

/-- Quantise a rational to k fractional digits with half-even rounding,
modelling round(value, k) on Python Decimal values. -/
def quantize (k : ℕ) (q : ℚ) : ℚ :=
  (roundHalfEven (q * (10 : ℚ) ^ k) : ℚ) / (10 : ℚ) ^ k

/-- The slash character separating base and quote in a symbol. -/
def slashChar : Char := '/'

/-- Python str.upper on a character list (ASCII). -/
def pyUpper (s : List Char) : List Char :=
  s.map Char.toUpper

/-- Python str.strip on a character list: remove leading and trailing
whitespace. -/
def pyStrip (s : List Char) : List Char :=
  ((s.dropWhile Char.isWhitespace).reverse.dropWhile Char.isWhitespace).reverse

/-- Python str.split on the slash separator: cut the character list at
every slash, keeping empty pieces. -/
def splitSlash : List Char → List (List Char)
  | [] => [[]]
  | c :: cs =>
    match splitSlash cs with
    | [] => [[]]
    | p :: ps => if c = slashChar then [] :: p :: ps else (c :: p) :: ps

/-- Python str.isalpha on a character list: nonempty and all alphabetic
(ASCII). -/
def pyIsAlpha (s : List Char) : Bool :=
  !s.isEmpty && s.all Char.isAlpha

/-- Symbol validator of TradeCreate (validate_symbol_format in
backend/app/schemas/trade.py): uppercase and strip the input, require a
slash to occur, then require the split to yield exactly two alphabetic
parts; returns the normalised symbol. -/
def validate_symbol_format (v : String) : Option String :=
  let symbol := pyStrip (pyUpper v.data)
  if !symbol.contains slashChar then none
  else
    let parts := splitSlash symbol
    if parts.length = 2 && parts.all pyIsAlpha then some (String.mk symbol)
    else none

/-- Request payload for opening a trade (TradeCreate in
backend/app/schemas/trade.py). -/
structure TradeCreate where
  symbol : String
  entry_price : ℚ
  quantity : ℚ
  trade_type : TradeType
deriving DecidableEq

/-- Full validation performed by the TradeCreate schema: the pydantic
field constraints (symbol length between 3 and 20, entry price and
quantity strictly positive) followed by the symbol format validator and
the quantisation of both numeric fields to 8 fractional digits. -/
def TradeCreate.validate (d : TradeCreate) : Option TradeCreate :=
  if 3 ≤ d.symbol.length ∧ d.symbol.length ≤ 20 ∧ 0 < d.entry_price ∧ 0 < d.quantity then
    match validate_symbol_format d.symbol with
    | none => none
    | some s =>
      some { symbol := s,
             entry_price := quantize 8 d.entry_price,
             quantity := quantize 8 d.quantity,
             trade_type := d.trade_type }
  else none

/-- Validation performed by the TradeClose schema in
backend/app/schemas/trade.py: the exit price must be strictly positive
and is quantised to 8 fractional digits. -/
def TradeClose.validate (exit_price : ℚ) : Option ℚ :=
  if 0 < exit_price then some (quantize 8 exit_price) else none

/-- Portfolio statistics record (PortfolioSummary in
backend/app/schemas/trade.py). The win rate is a rational modelling the
float percentage. -/
structure PortfolioSummary where
  total_realized_pnl : ℚ
  open_positions : ℕ
  closed_positions : ℕ
  winning_trades : ℕ
  losing_trades : ℕ
  win_rate : ℚ
deriving DecidableEq

namespace TradeService

/-- TradeService.create_trade in backend/app/services/trade_service.py:
insert a new OPEN trade built from validated request data; exit price,
realized pnl and close time start absent. -/
def create_trade (db : List Trade) (user_id : ℕ) (d : TradeCreate) (newId now : ℕ) :
    List Trade :=
  db ++ [{ id := newId,
           user_id := user_id,
           symbol := d.symbol,
           entry_price := d.entry_price,
           quantity := d.quantity,
           trade_type := d.trade_type,
           status := TradeStatus.OPEN,
           exit_price := none,
           realized_pnl := none,
           created_at := now,
           closed_at := none }]

/-- Ordering key used by the list endpoints: descending created_at. -/
def createdDesc (a b : Trade) : Prop :=
  b.created_at ≤ a.created_at

instance : DecidableRel createdDesc :=
  fun a b => Nat.decLe b.created_at a.created_at

instance : IsTotal Trade createdDesc :=
  ⟨fun a b => Nat.le_total b.created_at a.created_at⟩

instance : IsTrans Trade createdDesc :=
  ⟨fun _ _ _ hab hbc => Nat.le_trans hbc hab⟩

/-- ORDER BY created_at DESC, modelled as a stable insertion sort. -/
def sortByCreatedDesc (l : List Trade) : List Trade :=
  List.insertionSort createdDesc l

/-- The optional status filter of the list endpoint. -/
def statusMatches (s : Option TradeStatus) (t : Trade) : Bool :=
  match s with
  | none => true
  | some st => decide (t.status = st)

/-- TradeService.get_user_trades: select the trades of one user,
optionally restricted to one status, most recent first. -/
def get_user_trades (db : List Trade) (user_id : ℕ) (status : Option TradeStatus) :
    List Trade :=
  sortByCreatedDesc
    ((db.filter (fun t => decide (t.user_id = user_id))).filter (statusMatches status))

/-- TradeService.get_all_trades: every trade in the system, most recent
first. -/
def get_all_trades (db : List Trade) : List Trade :=
  sortByCreatedDesc db

/-- TradeService.get_trade_by_id: the trade with the given primary key,
only if it belongs to the given user. -/
def get_trade_by_id (db : List Trade) (trade_id user_id : ℕ) : Option Trade :=
  db.find? (fun t => decide (t.id = trade_id) && decide (t.user_id = user_id))

/-- TradeService.close_trade: record realized pnl, exit price, CLOSED
status and close time on a trade; all other fields are kept. -/
def close_trade (t : Trade) (exit_price : ℚ) (now : ℕ) : Trade :=
  { t with realized_pnl := some (t.calculate_pnl exit_price),
           exit_price := some exit_price,
           status := TradeStatus.CLOSED,
           closed_at := some now }

/-- One step of the aggregation loop of get_portfolio_summary. The
accumulator is (total pnl, winning count, losing count). Python tests
the truthiness of realized_pnl, so an absent or zero pnl skips the whole
step. -/
def summaryLoop (acc : ℚ × ℕ × ℕ) (t : Trade) : ℚ × ℕ × ℕ :=
  match t.realized_pnl with
  | none => acc
  | some p =>
    if p = 0 then acc
    else
      if 0 < p then (acc.1 + p, acc.2.1 + 1, acc.2.2)
      else if p < 0 then (acc.1 + p, acc.2.1, acc.2.2 + 1)
      else (acc.1 + p, acc.2.1, acc.2.2)

/-- TradeService.get_portfolio_summary: count open positions, collect
the closed trades, fold the aggregation loop over them, and derive the
win rate percentage rounded to two fractional digits. -/
def get_portfolio_summary (db : List Trade) (user_id : ℕ) : PortfolioSummary :=
  let open_positions :=
    (db.filter (fun t => decide (t.user_id = user_id) && decide (t.status = TradeStatus.OPEN))).length
  let closed_trades :=
    db.filter (fun t => decide (t.user_id = user_id) && decide (t.status = TradeStatus.CLOSED))
  let stats := closed_trades.foldl summaryLoop (0, 0, 0)
  let closed_positions := closed_trades.length
  let raw_rate : ℚ :=
    if 0 < closed_positions then ((stats.2.1 : ℚ) / (closed_positions : ℚ)) * 100 else 0
  { total_realized_pnl := stats.1,
    open_positions := open_positions,
    closed_positions := closed_positions,
    winning_trades := stats.2.1,
    losing_trades := stats.2.2,
    win_rate := quantize 2 raw_rate }

end TradeService

/-- Error kinds surfaced by the endpoints (backend/app/middleware/
exception_handler.py plus pydantic request validation). -/
inductive ApiError where
  | validationError
  | notFound
  | alreadyClosed
deriving DecidableEq

/-- Body of the close endpoint handler (close_trade in
backend/app/routers/trades.py), which runs after the request body has
been validated: look the trade up by id and owner, fail with not found
when absent, fail with already closed when the trade is CLOSED, else
close it. It returns the updated trade and the updated database. -/
def close_trade_handler (db : List Trade) (trade_id user_id : ℕ) (exit_price : ℚ)
    (now : ℕ) : Except ApiError (Trade × List Trade) :=
  match TradeService.get_trade_by_id db trade_id user_id with
  | none => Except.error ApiError.notFound
  | some t =>
    if t.status = TradeStatus.CLOSED then Except.error ApiError.alreadyClosed
    else
      let t2 := TradeService.close_trade t exit_price now
      Except.ok (t2, db.map (fun u => if u = t then t2 else u))

/-- A full close request: TradeClose body validation followed by the
endpoint handler. -/
def close_request (db : List Trade) (trade_id user_id : ℕ) (exit_price : ℚ)
    (now : ℕ) : Except ApiError (Trade × List Trade) :=
  match TradeClose.validate exit_price with
  | none => Except.error ApiError.validationError
  | some xp => close_trade_handler db trade_id user_id xp now

/-- A full open request: TradeCreate validation followed by
TradeService.create_trade. -/
def create_request (db : List Trade) (user_id : ℕ) (d : TradeCreate) (newId now : ℕ) :
    Except ApiError (List Trade) :=
  match TradeCreate.validate d with
  | none => Except.error ApiError.validationError
  | some d2 => Except.ok (TradeService.create_trade db user_id d2 newId now)

/-- Symbol format in the words of the specification: exactly one slash
separating two alphabetic segments. -/
def claimSymbolFormat (s : List Char) : Bool :=
  (splitSlash s).length == 2 && (splitSlash s).all pyIsAlpha

/-- The closed trades of one user, as selected by the aggregation
service. -/
def userClosedTrades (db : List Trade) (uid : ℕ) : List Trade :=
  db.filter (fun t => decide (t.user_id = uid) && decide (t.status = TradeStatus.CLOSED))

/-- The open trades of one user. -/
def userOpenTrades (db : List Trade) (uid : ℕ) : List Trade :=
  db.filter (fun t => decide (t.user_id = uid) && decide (t.status = TradeStatus.OPEN))

/-- The realized pnl of a trade, reading an absent value as zero. -/
def pnlValue (t : Trade) : ℚ :=
  t.realized_pnl.getD 0

/-- Count of a user's closed trades with strictly positive realized pnl. -/
def winCount (db : List Trade) (uid : ℕ) : ℕ :=
  ((userClosedTrades db uid).filter (fun t => decide (0 < pnlValue t))).length

/-- Count of a user's closed trades with strictly negative realized pnl. -/
def loseCount (db : List Trade) (uid : ℕ) : ℕ :=
  ((userClosedTrades db uid).filter (fun t => decide (pnlValue t < 0))).length

/-- Concrete sample data used to instantiate the theorems below. -/
def btcSymbol : String := "BTC/USDT"

/-- Second sample symbol. -/
def ethSymbol : String := "ETH/USDT"

/-- The decimal 0.1 as a rational in lowest terms, written as a
constructor so that kernel evaluation never normalises fractions. -/
def qTenth : ℚ := ⟨1, 10, by norm_num, by norm_num⟩

/-- Sample open long trade: entry 50000, quantity 0.1. -/
def tradeLongOpen : Trade :=
  { id := 1, user_id := 1, symbol := btcSymbol, entry_price := 50000, quantity := qTenth,
    trade_type := TradeType.BUY, status := TradeStatus.OPEN, exit_price := none,
    realized_pnl := none, created_at := 5, closed_at := none }

/-- Sample open short trade: entry 3000, quantity 2. -/
def tradeShortOpen : Trade :=
  { id := 2, user_id := 1, symbol := ethSymbol, entry_price := 3000, quantity := 2,
    trade_type := TradeType.SELL, status := TradeStatus.OPEN, exit_price := none,
    realized_pnl := none, created_at := 7, closed_at := none }

/-- Sample closed trade of user 1 with realized pnl 500. -/
def tradeClosedA : Trade :=
  { id := 3, user_id := 1, symbol := btcSymbol, entry_price := 50000, quantity := qTenth,
    trade_type := TradeType.BUY, status := TradeStatus.CLOSED, exit_price := some 55000,
    realized_pnl := some 500, created_at := 9, closed_at := some 12 }

/-- Sample closed trade of user 2 with realized pnl 1000. -/
def tradeClosedB : Trade :=
  { id := 4, user_id := 2, symbol := ethSymbol, entry_price := 3000, quantity := 2,
    trade_type := TradeType.SELL, status := TradeStatus.CLOSED, exit_price := some 2500,
    realized_pnl := some 1000, created_at := 11, closed_at := some 13 }

/-- Sample database holding trades of two users. -/
def exampleDb : List Trade :=
  [tradeClosedA, tradeClosedB, tradeLongOpen]

/-- A symbol of 21 characters made of one slash between two alphabetic
segments. -/
def longSymbol : String := "ABCDEFGHIJ/KLMNOPQRST"

/-- Sample open trade of user 2, used to vary the database of user 2. -/
def tradeOpenB : Trade :=
  { id := 6, user_id := 2, symbol := ethSymbol, entry_price := 4000, quantity := 1,
    trade_type := TradeType.BUY, status := TradeStatus.OPEN, exit_price := none,
    realized_pnl := none, created_at := 15, closed_at := none }

/-- A well formed open request. -/
def goodCreate : TradeCreate :=
  { symbol := btcSymbol, entry_price := 50000, quantity := qTenth,
    trade_type := TradeType.BUY }

/-
  Helper lemmas shared by the claim theorems.
-/

theorem qTenth_eq : qTenth = 1 / 10 := by
  rw [qTenth, Rat.mk'_eq_divInt, Rat.divInt_eq_div]
  norm_num

theorem get_trade_by_id_spec {db : List Trade} {tid uid : ℕ} {t : Trade}
    (h : TradeService.get_trade_by_id db tid uid = some t) :
    t ∈ db ∧ t.id = tid ∧ t.user_id = uid := by
  refine ⟨List.mem_of_find?_eq_some h, ?_, ?_⟩
  · have hp := List.find?_some h
    simp only [Bool.and_eq_true, decide_eq_true_eq] at hp
    exact hp.1
  · have hp := List.find?_some h
    simp only [Bool.and_eq_true, decide_eq_true_eq] at hp
    exact hp.2

theorem get_trade_by_id_of_mem {db : List Trade} {t : Trade} {uid : ℕ}
    (hnodup : (db.map Trade.id).Nodup) (hmem : t ∈ db) (huid : t.user_id = uid) :
    TradeService.get_trade_by_id db t.id uid = some t := by
  have hsome : (db.find? (fun u => decide (u.id = t.id) && decide (u.user_id = uid))).isSome := by
    rw [List.find?_isSome]
    exact ⟨t, hmem, by simp [huid]⟩
  obtain ⟨u, hu⟩ := Option.isSome_iff_exists.mp hsome
  have humem : u ∈ db := List.mem_of_find?_eq_some hu
  have hp := List.find?_some hu
  simp only [Bool.and_eq_true, decide_eq_true_eq] at hp
  have : u = t := List.inj_on_of_nodup_map hnodup humem hmem hp.1
  rw [TradeService.get_trade_by_id, hu, this]

theorem get_trade_by_id_none_of_foreign {db : List Trade} {tb : Trade} {uid : ℕ}
    (hnodup : (db.map Trade.id).Nodup) (hmem : tb ∈ db) (hfor : tb.user_id ≠ uid) :
    TradeService.get_trade_by_id db tb.id uid = none := by
  rw [TradeService.get_trade_by_id, List.find?_eq_none]
  intro u humem hp
  simp only [Bool.and_eq_true, decide_eq_true_eq] at hp
  have : u = tb := List.inj_on_of_nodup_map hnodup humem hmem hp.1
  exact hfor (this ▸ hp.2)

/-- C1: for positive entry price, exit price and quantity, the pnl
function returns (exit - entry) * quantity on BUY (long) trades and
(entry - exit) * quantity on SELL (short) trades; being a total function
on rationals it has no other failure mode. -/
theorem pnl_rule_correct (t : Trade) (x : ℚ)
    (hentry : 0 < t.entry_price) (hx : 0 < x) (hqty : 0 < t.quantity) :
    (t.trade_type = TradeType.BUY → t.calculate_pnl x = (x - t.entry_price) * t.quantity)
    ∧ (t.trade_type = TradeType.SELL → t.calculate_pnl x = (t.entry_price - x) * t.quantity) := by
  constructor <;> intro h <;> simp [Trade.calculate_pnl, h]

/-- Witness for C1 at the short scenario of the specification: entry
3000, exit 2500, quantity 2 gives pnl 1000. -/
theorem pnl_rule_correct_witness :
    ((0:ℚ) < tradeShortOpen.entry_price ∧ (0:ℚ) < 2500 ∧ (0:ℚ) < tradeShortOpen.quantity)
    ∧ (tradeShortOpen.trade_type = TradeType.SELL →
        tradeShortOpen.calculate_pnl 2500 = (tradeShortOpen.entry_price - 2500) * tradeShortOpen.quantity)
    ∧ tradeShortOpen.calculate_pnl 2500 = 1000 := by
  refine ⟨⟨by norm_num [tradeShortOpen], by norm_num, by norm_num [tradeShortOpen]⟩, ?_, ?_⟩
  · exact (pnl_rule_correct tradeShortOpen 2500 (by norm_num [tradeShortOpen]) (by norm_num)
      (by norm_num [tradeShortOpen])).2
  · rw [Trade.calculate_pnl, if_neg (by decide)]
    norm_num [tradeShortOpen]

/-- C2: closing an open trade owned by the caller with a positive exit
price succeeds; the stored exit price is the request price quantised to
8 fractional digits, the realized pnl is the pnl rule applied to the
stored direction, entry price and quantity at that exit price, the
status becomes CLOSED and the close time is recorded. -/
theorem close_open_trade_effect (db : List Trade) (t : Trade) (uid : ℕ) (x : ℚ) (now : ℕ)
    (hnodup : (db.map Trade.id).Nodup) (hmem : t ∈ db) (huid : t.user_id = uid)
    (hopen : t.status = TradeStatus.OPEN) (hx : 0 < x) :
    ∃ t2 db2, close_request db t.id uid x now = Except.ok (t2, db2)
      ∧ t2.exit_price = some (quantize 8 x)
      ∧ t2.realized_pnl = some (t.calculate_pnl (quantize 8 x))
      ∧ t2.status = TradeStatus.CLOSED
      ∧ t2.closed_at = some now := by
  have hfind := get_trade_by_id_of_mem hnodup hmem huid
  refine ⟨TradeService.close_trade t (quantize 8 x) now,
    db.map (fun u => if u = t then TradeService.close_trade t (quantize 8 x) now else u),
    ?_, rfl, rfl, rfl, rfl⟩
  simp only [close_request, TradeClose.validate, if_pos hx, close_trade_handler, hfind]
  rw [if_neg (by rw [hopen]; exact fun hc => TradeStatus.noConfusion hc)]

/-- Witness for C2 at the long scenario of the specification: a long
trade at entry 50000 with quantity 0.1 closed at 55000 ends CLOSED with
realized pnl 500. -/
theorem close_open_trade_effect_witness :
    (([tradeLongOpen].map Trade.id).Nodup ∧ tradeLongOpen ∈ [tradeLongOpen]
      ∧ tradeLongOpen.user_id = 1 ∧ tradeLongOpen.status = TradeStatus.OPEN ∧ (0:ℚ) < 55000)
    ∧ (∃ t2 db2, close_request [tradeLongOpen] tradeLongOpen.id 1 55000 42 = Except.ok (t2, db2)
        ∧ t2.exit_price = some (quantize 8 55000)
        ∧ t2.realized_pnl = some (tradeLongOpen.calculate_pnl (quantize 8 55000))
        ∧ t2.status = TradeStatus.CLOSED
        ∧ t2.closed_at = some 42)
    ∧ tradeLongOpen.calculate_pnl (quantize 8 55000) = 500 := by
  refine ⟨⟨by decide, by decide, by decide, by decide, by decide⟩, ?_, ?_⟩
  · exact close_open_trade_effect [tradeLongOpen] tradeLongOpen 1 55000 42
      (by decide) (by decide) (by decide) (by decide) (by decide)
  · norm_num [Trade.calculate_pnl, tradeLongOpen, quantize, roundHalfEven, qTenth_eq]

theorem close_request_ok_shape {db : List Trade} {tid uid : ℕ} {x : ℚ} {now : ℕ}
    {t2 : Trade} {db2 : List Trade}
    (h : close_request db tid uid x now = Except.ok (t2, db2)) :
    ∃ t, TradeService.get_trade_by_id db tid uid = some t
      ∧ t.status ≠ TradeStatus.CLOSED
      ∧ t2 = TradeService.close_trade t (quantize 8 x) now
      ∧ db2 = db.map (fun u => if u = t then t2 else u) := by
  unfold close_request at h
  split at h
  · exact absurd h (by simp)
  · rename_i xp hval
    have hxp : xp = quantize 8 x := by
      unfold TradeClose.validate at hval
      split at hval
      · exact (Option.some.inj hval).symm
      · exact absurd hval (by simp)
    subst hxp
    unfold close_trade_handler at h
    split at h
    · exact absurd h (by simp)
    · rename_i t hfind
      split at h
      · exact absurd h (by simp)
      · rename_i hst
        simp only [Except.ok.injEq, Prod.mk.injEq] at h
        exact ⟨t, hfind, hst, h.1.symm, by rw [← h.2, h.1]⟩

theorem create_request_ok_shape {db : List Trade} {uid : ℕ} {d : TradeCreate}
    {newId now : ℕ} {db2 : List Trade}
    (h : create_request db uid d newId now = Except.ok db2) :
    ∃ d2, TradeCreate.validate d = some d2
      ∧ db2 = TradeService.create_trade db uid d2 newId now := by
  unfold create_request at h
  split at h
  · exact absurd h (by simp)
  · rename_i d2 hval
    exact ⟨d2, hval, (Except.ok.inj h).symm⟩

/-- C3: a close request with a valid exit price against a CLOSED trade
owned by the caller fails with the already-closed error; moreover no
close or create request ever removes or alters a CLOSED trade stored in
the database. -/
theorem closed_trade_immutable (db : List Trade) (t : Trade) (uid : ℕ) (x : ℚ) (now : ℕ)
    (hnodup : (db.map Trade.id).Nodup) (hmem : t ∈ db) (huid : t.user_id = uid)
    (hclosed : t.status = TradeStatus.CLOSED) (hx : 0 < x) :
    close_request db t.id uid x now = Except.error ApiError.alreadyClosed
    ∧ (∀ tid uid2 x2 now2 t2 db2,
        close_request db tid uid2 x2 now2 = Except.ok (t2, db2) →
        ∀ u ∈ db, u.status = TradeStatus.CLOSED → u ∈ db2)
    ∧ (∀ uid2 d newId now2 db3,
        create_request db uid2 d newId now2 = Except.ok db3 →
        ∀ u ∈ db, u ∈ db3) := by
  refine ⟨?_, ?_, ?_⟩
  · have hfind := get_trade_by_id_of_mem hnodup hmem huid
    simp only [close_request, TradeClose.validate, if_pos hx, close_trade_handler, hfind]
    rw [if_pos hclosed]
  · intro tid uid2 x2 now2 t2 db2 h u humem hu
    obtain ⟨tf, hfind, hst, ht2, hdb2⟩ := close_request_ok_shape h
    subst hdb2
    have hne : u ≠ tf := fun he => hst (he ▸ hu)
    have hmm := List.mem_map_of_mem (fun v => if v = tf then t2 else v) humem
    simpa [hne] using hmm
  · intro uid2 d newId now2 db3 h u humem
    obtain ⟨d2, _, hdb3⟩ := create_request_ok_shape h
    subst hdb3
    exact List.mem_append_left _ humem

/-- Witness for C3: closing the already closed sample trade again fails
with the already-closed error. -/
theorem closed_trade_immutable_witness :
    ((exampleDb.map Trade.id).Nodup ∧ tradeClosedA ∈ exampleDb
      ∧ tradeClosedA.user_id = 1 ∧ tradeClosedA.status = TradeStatus.CLOSED ∧ (0:ℚ) < 60000)
    ∧ close_request exampleDb tradeClosedA.id 1 60000 50 = Except.error ApiError.alreadyClosed :=
  ⟨⟨by decide, by decide, by decide, by decide, by decide⟩,
   (closed_trade_immutable exampleDb tradeClosedA 1 60000 50
      (by decide) (by decide) (by decide) (by decide) (by decide)).1⟩

/-- C10: a close request against an existing trade of another user fails
with the not-found error whatever the status of that trade, and such a
request can never fail with the already-closed error, so the error kind
reveals nothing about a foreign trade. -/
theorem foreign_close_not_found (db : List Trade) (tb : Trade) (a : ℕ) (x : ℚ) (now : ℕ)
    (hnodup : (db.map Trade.id).Nodup) (hmem : tb ∈ db) (hfor : tb.user_id ≠ a) (hx : 0 < x) :
    close_request db tb.id a x now = Except.error ApiError.notFound
    ∧ ∀ x2 now2, close_request db tb.id a x2 now2 ≠ Except.error ApiError.alreadyClosed := by
  have hnone := get_trade_by_id_none_of_foreign hnodup hmem hfor
  constructor
  · simp only [close_request, TradeClose.validate, if_pos hx, close_trade_handler, hnone]
  · intro x2 now2 h
    unfold close_request at h
    split at h
    · simp at h
    · simp [close_trade_handler, hnone] at h

/-- Witness for C10: user 1 closing the closed trade of user 2 gets the
not-found error. -/
theorem foreign_close_not_found_witness :
    ((exampleDb.map Trade.id).Nodup ∧ tradeClosedB ∈ exampleDb
      ∧ tradeClosedB.user_id ≠ 1 ∧ (0:ℚ) < 100)
    ∧ close_request exampleDb tradeClosedB.id 1 100 50 = Except.error ApiError.notFound :=
  ⟨⟨by decide, by decide, by decide, by decide⟩,
   (foreign_close_not_found exampleDb tradeClosedB 1 100 50
      (by decide) (by decide) (by decide) (by decide)).1⟩

theorem summaryLoop_step (acc : ℚ × ℕ × ℕ) (t : Trade) :
    TradeService.summaryLoop acc t
      = (acc.1 + pnlValue t,
         acc.2.1 + (if 0 < pnlValue t then 1 else 0),
         acc.2.2 + (if pnlValue t < 0 then 1 else 0)) := by
  rcases acc with ⟨s, w, l⟩
  cases hr : t.realized_pnl with
  | none => simp [TradeService.summaryLoop, hr, pnlValue]
  | some p =>
    rcases lt_trichotomy p 0 with hneg | hz | hpos
    · simp [TradeService.summaryLoop, hr, pnlValue, hneg.ne, not_lt.mpr hneg.le, hneg]
    · subst hz
      simp [TradeService.summaryLoop, hr, pnlValue]
    · simp [TradeService.summaryLoop, hr, pnlValue, hpos.ne.symm, hpos, not_lt.mpr hpos.le]

theorem summaryLoop_foldl (ts : List Trade) (s : ℚ) (w l : ℕ) :
    ts.foldl TradeService.summaryLoop (s, w, l)
      = (s + (ts.map pnlValue).sum,
         w + (ts.filter (fun t => decide (0 < pnlValue t))).length,
         l + (ts.filter (fun t => decide (pnlValue t < 0))).length) := by
  induction ts generalizing s w l with
  | nil => simp
  | cons t ts ih =>
    rw [List.foldl_cons, summaryLoop_step, ih]
    simp only [List.map_cons, List.sum_cons, List.filter_cons, Prod.mk.injEq]
    refine ⟨by ring, ?_, ?_⟩
    · by_cases h : 0 < pnlValue t <;> simp [h] <;> omega
    · by_cases h : pnlValue t < 0 <;> simp [h] <;> omega

theorem filter_pos_neg_length_le (ts : List Trade) :
    (ts.filter (fun t => decide (0 < pnlValue t))).length
      + (ts.filter (fun t => decide (pnlValue t < 0))).length ≤ ts.length := by
  induction ts with
  | nil => simp
  | cons t ts ih =>
    by_cases hpos : 0 < pnlValue t
    · have hn : ¬ pnlValue t < 0 := not_lt.mpr hpos.le
      simp [List.filter_cons, hpos, hn]
      omega
    · by_cases hneg : pnlValue t < 0
      · simp [List.filter_cons, hpos, hneg]
        omega
      · simp [List.filter_cons, hpos, hneg]
        omega

theorem portfolio_summary_parts (db : List Trade) (uid : ℕ) :
    TradeService.get_portfolio_summary db uid
      = { total_realized_pnl := ((userClosedTrades db uid).map pnlValue).sum,
          open_positions := (userOpenTrades db uid).length,
          closed_positions := (userClosedTrades db uid).length,
          winning_trades := winCount db uid,
          losing_trades := loseCount db uid,
          win_rate := quantize 2 (if 0 < (userClosedTrades db uid).length
            then ((winCount db uid : ℚ) / ((userClosedTrades db uid).length : ℚ)) * 100
            else 0) } := by
  simp only [TradeService.get_portfolio_summary, summaryLoop_foldl, zero_add,
    PortfolioSummary.mk.injEq, userOpenTrades, userClosedTrades, winCount, loseCount]

/-- C6: the summary total is the exact sum of realized pnl over the
users closed trades (zero when there are none), winning and losing
trades count the closed trades with strictly positive and strictly
negative pnl, and together they never exceed the closed position count,
breakeven trades counting toward neither. -/
theorem portfolio_totals (db : List Trade) (uid : ℕ) :
    (TradeService.get_portfolio_summary db uid).total_realized_pnl
        = ((userClosedTrades db uid).map pnlValue).sum
    ∧ (TradeService.get_portfolio_summary db uid).winning_trades = winCount db uid
    ∧ (TradeService.get_portfolio_summary db uid).losing_trades = loseCount db uid
    ∧ winCount db uid + loseCount db uid
        ≤ (TradeService.get_portfolio_summary db uid).closed_positions
    ∧ (userClosedTrades db uid = [] →
        (TradeService.get_portfolio_summary db uid).total_realized_pnl = 0) := by
  rw [portfolio_summary_parts]
  refine ⟨rfl, rfl, rfl, filter_pos_neg_length_le _, ?_⟩
  intro h
  simp [h]

/-- Witness for C6: on the sample database the total of user 1 is the
sum over the single closed trade, which is 500. -/
theorem portfolio_totals_witness :
    (TradeService.get_portfolio_summary exampleDb 1).total_realized_pnl
        = ((userClosedTrades exampleDb 1).map pnlValue).sum
    ∧ (TradeService.get_portfolio_summary exampleDb 1).total_realized_pnl = 500 := by
  refine ⟨(portfolio_totals exampleDb 1).1, ?_⟩
  rw [(portfolio_totals exampleDb 1).1,
    show userClosedTrades exampleDb 1 = [tradeClosedA] from by decide]
  norm_num [pnlValue, tradeClosedA]

/-- C7: the summary reports the open and closed position counts of the
user, and the win rate is zero without closed positions and otherwise
100 times the winning count divided by the closed count, rounded to two
fractional digits. -/
theorem portfolio_win_rate (db : List Trade) (uid : ℕ) :
    (TradeService.get_portfolio_summary db uid).open_positions = (userOpenTrades db uid).length
    ∧ (TradeService.get_portfolio_summary db uid).closed_positions
        = (userClosedTrades db uid).length
    ∧ ((userClosedTrades db uid).length = 0 →
        (TradeService.get_portfolio_summary db uid).win_rate = 0)
    ∧ (0 < (userClosedTrades db uid).length →
        (TradeService.get_portfolio_summary db uid).win_rate
          = quantize 2 (100 * (winCount db uid : ℚ) / ((userClosedTrades db uid).length : ℚ))) := by
  rw [portfolio_summary_parts]
  refine ⟨rfl, rfl, ?_, ?_⟩
  · intro h
    simp only [h, lt_irrefl, if_false]
    norm_num [quantize, roundHalfEven]
  · intro h
    rw [if_pos h]
    ring_nf

/-- Witness for C7: user 1 of the sample database has one closed trade,
one winning trade, and a win rate of 100. -/
theorem portfolio_win_rate_witness :
    0 < (userClosedTrades exampleDb 1).length
    ∧ (TradeService.get_portfolio_summary exampleDb 1).win_rate
        = quantize 2 (100 * (winCount exampleDb 1 : ℚ) / ((userClosedTrades exampleDb 1).length : ℚ))
    ∧ (TradeService.get_portfolio_summary exampleDb 1).win_rate = 100 := by
  have h1 : 0 < (userClosedTrades exampleDb 1).length := by decide
  have h2 := (portfolio_win_rate exampleDb 1).2.2.2 h1
  have hw : winCount exampleDb 1 = 1 := by decide
  have hl : (userClosedTrades exampleDb 1).length = 1 := by decide
  refine ⟨h1, h2, ?_⟩
  rw [h2, hw, hl]
  norm_num [quantize, roundHalfEven]

theorem filter_append_none (db ts : List Trade) (q : Trade → Bool)
    (h : ∀ u ∈ ts, q u = false) :
    (db ++ ts).filter q = db.filter q := by
  have h2 : ts.filter q = [] := List.filter_eq_nil_iff.mpr (by intro u hu; simp [h u hu])
  rw [List.filter_append, h2, List.append_nil]

/-- C4: users are isolated: listing trades of user a returns records of
user a only and never a trade of another user b; looking a foreign
trade up by id yields nothing; and appending trades of user b changes
neither the list nor the portfolio summary of user a. -/
theorem user_isolation (db ts : List Trade) (a b : ℕ) (tb : Trade) (s : Option TradeStatus)
    (hab : a ≠ b) (hmem : tb ∈ db) (hb : tb.user_id = b)
    (hnodup : (db.map Trade.id).Nodup) (hts : ∀ u ∈ ts, u.user_id = b) :
    (∀ u ∈ TradeService.get_user_trades db a s, u.user_id = a)
    ∧ tb ∉ TradeService.get_user_trades db a s
    ∧ TradeService.get_trade_by_id db tb.id a = none
    ∧ TradeService.get_user_trades (db ++ ts) a s = TradeService.get_user_trades db a s
    ∧ TradeService.get_portfolio_summary (db ++ ts) a
        = TradeService.get_portfolio_summary db a := by
  have hba : b ≠ a := fun he => hab he.symm
  have husers : ∀ u ∈ TradeService.get_user_trades db a s, u.user_id = a := by
    intro u hu
    rw [TradeService.get_user_trades, TradeService.sortByCreatedDesc,
      List.mem_insertionSort] at hu
    have hu2 := (List.mem_filter.mp hu).1
    exact of_decide_eq_true (List.mem_filter.mp hu2).2
  refine ⟨husers, ?_, ?_, ?_, ?_⟩
  · intro hmem2
    exact hba (hb.symm.trans (husers tb hmem2))
  · exact get_trade_by_id_none_of_foreign hnodup hmem (by rw [hb]; exact hba)
  · rw [TradeService.get_user_trades, TradeService.get_user_trades,
      filter_append_none db ts _ (by intro u hu; simp [hts u hu, hba])]
  · have hc : userClosedTrades (db ++ ts) a = userClosedTrades db a := by
      rw [userClosedTrades, userClosedTrades,
        filter_append_none db ts _ (by intro u hu; simp [hts u hu, hba])]
    have ho : userOpenTrades (db ++ ts) a = userOpenTrades db a := by
      rw [userOpenTrades, userOpenTrades,
        filter_append_none db ts _ (by intro u hu; simp [hts u hu, hba])]
    rw [portfolio_summary_parts, portfolio_summary_parts]
    simp only [winCount, loseCount, hc, ho]

/-- Witness for C4: trades of user 2 are invisible to user 1 on the
sample database, and adding another trade of user 2 keeps the summary
of user 1 unchanged. -/
theorem user_isolation_witness :
    ((1:ℕ) ≠ 2 ∧ tradeClosedB ∈ exampleDb ∧ tradeClosedB.user_id = 2
      ∧ (exampleDb.map Trade.id).Nodup ∧ ∀ u ∈ [tradeOpenB], u.user_id = 2)
    ∧ TradeService.get_trade_by_id exampleDb tradeClosedB.id 1 = none
    ∧ TradeService.get_portfolio_summary (exampleDb ++ [tradeOpenB]) 1
        = TradeService.get_portfolio_summary exampleDb 1 := by
  refine ⟨⟨by decide, by decide, by decide, by decide, by decide⟩, ?_, ?_⟩
  · exact (user_isolation exampleDb [tradeOpenB] 1 2 tradeClosedB none
      (by decide) (by decide) (by decide) (by decide) (by decide)).2.2.1
  · exact (user_isolation exampleDb [tradeOpenB] 1 2 tradeClosedB none
      (by decide) (by decide) (by decide) (by decide) (by decide)).2.2.2.2

/-- C9: the per user listing returns exactly the trades of that user
that match the optional status filter, ordered by descending creation
time, and the admin listing returns every trade in the system ordered
by descending creation time. -/
theorem list_endpoints_spec (db : List Trade) (uid : ℕ) (s : Option TradeStatus) :
    (∀ u ∈ TradeService.get_user_trades db uid s, u.user_id = uid)
    ∧ (∀ st, s = some st → ∀ u ∈ TradeService.get_user_trades db uid s, u.status = st)
    ∧ (TradeService.get_user_trades db uid s).Perm
        ((db.filter (fun t => decide (t.user_id = uid))).filter (TradeService.statusMatches s))
    ∧ List.Sorted TradeService.createdDesc (TradeService.get_user_trades db uid s)
    ∧ (TradeService.get_all_trades db).Perm db
    ∧ List.Sorted TradeService.createdDesc (TradeService.get_all_trades db) := by
  refine ⟨?_, ?_, ?_, ?_, ?_, ?_⟩
  · intro u hu
    rw [TradeService.get_user_trades, TradeService.sortByCreatedDesc,
      List.mem_insertionSort] at hu
    exact of_decide_eq_true (List.mem_filter.mp (List.mem_filter.mp hu).1).2
  · intro st hst u hu
    subst hst
    rw [TradeService.get_user_trades, TradeService.sortByCreatedDesc,
      List.mem_insertionSort] at hu
    have hu2 := (List.mem_filter.mp hu).2
    simpa [TradeService.statusMatches] using hu2
  · exact List.perm_insertionSort _ _
  · exact List.sorted_insertionSort _ _
  · exact List.perm_insertionSort _ _
  · exact List.sorted_insertionSort _ _

/-- Witness for C9: on the sample database, user 1 sees exactly the own
trades most recent first. -/
theorem list_endpoints_spec_witness :
    List.Sorted TradeService.createdDesc (TradeService.get_user_trades exampleDb 1 none)
    ∧ (TradeService.get_all_trades exampleDb).Perm exampleDb
    ∧ TradeService.get_user_trades exampleDb 1 none = [tradeClosedA, tradeLongOpen] := by
  refine ⟨(list_endpoints_spec exampleDb 1 none).2.2.2.1,
    (list_endpoints_spec exampleDb 1 none).2.2.2.2.1, ?_⟩
  decide

/-- C8: closing a trade keeps its direction, entry price, quantity,
symbol, owner, id and creation time while changing only the status,
exit price, realized pnl and close time fields; every other stored
trade survives unchanged, and the only other mutating operation,
opening a trade, only appends a new record. -/
theorem close_frame (db : List Trade) (t : Trade) (uid : ℕ) (x : ℚ) (now : ℕ)
    (hnodup : (db.map Trade.id).Nodup) (hmem : t ∈ db) (huid : t.user_id = uid)
    (hopen : t.status = TradeStatus.OPEN) (hx : 0 < x) :
    ∃ t2 db2, close_request db t.id uid x now = Except.ok (t2, db2)
      ∧ t2.trade_type = t.trade_type ∧ t2.entry_price = t.entry_price
      ∧ t2.quantity = t.quantity ∧ t2.symbol = t.symbol ∧ t2.user_id = t.user_id
      ∧ t2.id = t.id ∧ t2.created_at = t.created_at
      ∧ (∀ u ∈ db, u ≠ t → u ∈ db2)
      ∧ (∀ uid2 d newId now2 db3, create_request db uid2 d newId now2 = Except.ok db3 →
          ∀ u ∈ db, u ∈ db3) := by
  have hfind := get_trade_by_id_of_mem hnodup hmem huid
  refine ⟨TradeService.close_trade t (quantize 8 x) now,
    db.map (fun u => if u = t then TradeService.close_trade t (quantize 8 x) now else u),
    ?_, rfl, rfl, rfl, rfl, rfl, rfl, rfl, ?_, ?_⟩
  · simp only [close_request, TradeClose.validate, if_pos hx, close_trade_handler, hfind]
    rw [if_neg (by rw [hopen]; exact fun hc => TradeStatus.noConfusion hc)]
  · intro u hu hne
    have hmm := List.mem_map_of_mem
      (fun v => if v = t then TradeService.close_trade t (quantize 8 x) now else v) hu
    simpa [hne] using hmm
  · intro uid2 d newId now2 db3 h u hu
    obtain ⟨d2, _, hdb3⟩ := create_request_ok_shape h
    subst hdb3
    exact List.mem_append_left _ hu

/-- Witness for C8: closing the sample open trade keeps its immutable
fields. -/
theorem close_frame_witness :
    ∃ t2 db2, close_request [tradeLongOpen] tradeLongOpen.id 1 55000 42 = Except.ok (t2, db2)
      ∧ t2.trade_type = tradeLongOpen.trade_type
      ∧ t2.entry_price = tradeLongOpen.entry_price
      ∧ t2.quantity = tradeLongOpen.quantity
      ∧ t2.symbol = tradeLongOpen.symbol
      ∧ t2.user_id = tradeLongOpen.user_id
      ∧ t2.id = tradeLongOpen.id
      ∧ t2.created_at = tradeLongOpen.created_at := by
  obtain ⟨t2, db2, h1, h2, h3, h4, h5, h6, h7, h8, _, _⟩ :=
    close_frame [tradeLongOpen] tradeLongOpen 1 55000 42
      (by decide) (by decide) (by decide) (by decide) (by decide)
  exact ⟨t2, db2, h1, h2, h3, h4, h5, h6, h7, h8⟩

theorem splitSlash_of_not_mem {l : List Char} (h : slashChar ∉ l) :
    splitSlash l = [l] := by
  induction l with
  | nil => rfl
  | cons c cs ih =>
    have hc : ¬ c = slashChar := fun he => h (he ▸ List.mem_cons_self c cs)
    have hcs : slashChar ∉ cs := fun hm => h (List.mem_cons_of_mem c hm)
    simp [splitSlash, ih hcs, hc]

theorem validate_symbol_format_eq (v : String) :
    validate_symbol_format v
      = (if claimSymbolFormat (pyStrip (pyUpper v.data)) = true
         then some (String.mk (pyStrip (pyUpper v.data))) else none) := by
  unfold validate_symbol_format claimSymbolFormat
  cases hc : (pyStrip (pyUpper v.data)).contains slashChar with
  | false =>
    have hnm : slashChar ∉ pyStrip (pyUpper v.data) := by
      intro hm
      have hct : (pyStrip (pyUpper v.data)).contains slashChar = true := by
        simpa using hm
      rw [hct] at hc
      exact Bool.noConfusion hc
    simp [hc, splitSlash_of_not_mem hnm]
  | true =>
    simp only [hc, Bool.not_true, Bool.false_eq_true, if_false]
    by_cases h2 : (splitSlash (pyStrip (pyUpper v.data))).length = 2
    · by_cases hall : (splitSlash (pyStrip (pyUpper v.data))).all pyIsAlpha = true
      · simp [h2, hall]
      · rw [Bool.not_eq_true] at hall
        simp [h2, hall]
    · simp [h2]

/-- C5 (amended): an open request fails with a validation error exactly
when the raw symbol length lies outside 3 to 20, or the entry price or
quantity is not strictly positive, or the symbol after uppercasing and
stripping surrounding whitespace is not one slash between two
alphabetic segments; on success the stored trade carries the normalised
symbol, the numeric fields quantised to 8 fractional digits, status
OPEN, and absent exit price, realized pnl and close time. -/
theorem trade_create_validation (db : List Trade) (uid : ℕ) (d : TradeCreate)
    (newId now : ℕ) :
    (create_request db uid d newId now = Except.error ApiError.validationError
      ↔ ¬ (3 ≤ d.symbol.length ∧ d.symbol.length ≤ 20 ∧ 0 < d.entry_price ∧ 0 < d.quantity
            ∧ claimSymbolFormat (pyStrip (pyUpper d.symbol.data)) = true))
    ∧ (∀ db2, create_request db uid d newId now = Except.ok db2 →
        ∃ t, db2 = db ++ [t]
          ∧ t.symbol = String.mk (pyStrip (pyUpper d.symbol.data))
          ∧ t.entry_price = quantize 8 d.entry_price
          ∧ t.quantity = quantize 8 d.quantity
          ∧ t.trade_type = d.trade_type
          ∧ t.status = TradeStatus.OPEN
          ∧ t.exit_price = none ∧ t.realized_pnl = none ∧ t.closed_at = none
          ∧ t.user_id = uid ∧ t.id = newId ∧ t.created_at = now) := by
  have hval : TradeCreate.validate d
      = (if 3 ≤ d.symbol.length ∧ d.symbol.length ≤ 20 ∧ 0 < d.entry_price ∧ 0 < d.quantity
            ∧ claimSymbolFormat (pyStrip (pyUpper d.symbol.data)) = true
         then some { symbol := String.mk (pyStrip (pyUpper d.symbol.data)),
                     entry_price := quantize 8 d.entry_price,
                     quantity := quantize 8 d.quantity,
                     trade_type := d.trade_type }
         else none) := by
    unfold TradeCreate.validate
    rw [validate_symbol_format_eq]
    by_cases h1 : 3 ≤ d.symbol.length ∧ d.symbol.length ≤ 20
        ∧ 0 < d.entry_price ∧ 0 < d.quantity
    · by_cases h2 : claimSymbolFormat (pyStrip (pyUpper d.symbol.data)) = true
      · simp [h1, h2]
      · simp [h1, h2]
    · have hfull : ¬ (3 ≤ d.symbol.length ∧ d.symbol.length ≤ 20 ∧ 0 < d.entry_price
          ∧ 0 < d.quantity ∧ claimSymbolFormat (pyStrip (pyUpper d.symbol.data)) = true) :=
        fun hf => h1 ⟨hf.1, hf.2.1, hf.2.2.1, hf.2.2.2.1⟩
      simp [h1, hfull]
  constructor
  · unfold create_request
    rw [hval]
    by_cases hcond : 3 ≤ d.symbol.length ∧ d.symbol.length ≤ 20 ∧ 0 < d.entry_price
        ∧ 0 < d.quantity ∧ claimSymbolFormat (pyStrip (pyUpper d.symbol.data)) = true
    · simp [hcond]
    · simp [hcond]
  · intro db2 h
    unfold create_request at h
    rw [hval] at h
    by_cases hcond : 3 ≤ d.symbol.length ∧ d.symbol.length ≤ 20 ∧ 0 < d.entry_price
        ∧ 0 < d.quantity ∧ claimSymbolFormat (pyStrip (pyUpper d.symbol.data)) = true
    · rw [if_pos hcond] at h
      simp only [Except.ok.injEq] at h
      subst h
      exact ⟨_, rfl, rfl, rfl, rfl, rfl, rfl, rfl, rfl, rfl, rfl, rfl, rfl⟩
    · rw [if_neg hcond] at h
      exact absurd h (by simp)

/-- Counterexample for C5 as frozen: a 21 character symbol of one slash
between two alphabetic segments with positive price and quantity is a
request the claim says must succeed, yet validation rejects it, because
the schema also bounds the symbol length by 20. -/
theorem trade_create_claim_counterexample :
    claimSymbolFormat longSymbol.data = true
    ∧ (0:ℚ) < 1
    ∧ TradeCreate.validate
        { symbol := longSymbol, entry_price := 1, quantity := 1,
          trade_type := TradeType.BUY } = none
    ∧ create_request [] 1
        { symbol := longSymbol, entry_price := 1, quantity := 1,
          trade_type := TradeType.BUY } 7 0
        = Except.error ApiError.validationError := by
  have hv : TradeCreate.validate
      { symbol := longSymbol, entry_price := 1, quantity := 1,
        trade_type := TradeType.BUY } = none := by decide
  refine ⟨by decide, by decide, hv, ?_⟩
  unfold create_request
  rw [hv]

/-- Witness for C5: a well formed request is not rejected. -/
theorem trade_create_validation_witness :
    (3 ≤ goodCreate.symbol.length ∧ goodCreate.symbol.length ≤ 20
      ∧ 0 < goodCreate.entry_price ∧ 0 < goodCreate.quantity
      ∧ claimSymbolFormat (pyStrip (pyUpper goodCreate.symbol.data)) = true)
    ∧ create_request [] 1 goodCreate 7 0 ≠ Except.error ApiError.validationError := by
  have hcond : 3 ≤ goodCreate.symbol.length ∧ goodCreate.symbol.length ≤ 20
      ∧ 0 < goodCreate.entry_price ∧ 0 < goodCreate.quantity
      ∧ claimSymbolFormat (pyStrip (pyUpper goodCreate.symbol.data)) = true := by decide
  exact ⟨hcond, fun h => ((trade_create_validation [] 1 goodCreate 7 0).1.mp h) hcond⟩
